import Mathlib

/-!
Verification of the schema-constrained SQL generation and validation pipeline
of the insight-kopdes repository (src/chains/query_chain.py, src/db/connection.py).

The Python source is shallowly embedded: strings are `List Char` / `String`,
Python dicts become association lists, regular-expression scans become explicit
recursive scanners (fuel-based structural recursion, with the input length as
fuel, so that everything reduces by `decide` / `rfl`), exceptions become
`Except`, and the external collaborators (the OpenAI client, SQLAlchemy engine,
json.loads) are abstracted as function parameters while all control flow of the
repository itself is modelled concretely.
-/

/-- The double-quote character, written via its code point. -/
def dquote : Char := Char.ofNat 34

/-- The single-quote character, written via its code point. -/
def squote : Char := Char.ofNat 39

/-- The opening curly brace character. -/
def obrace : Char := Char.ofNat 123

/-- The closing curly brace character. -/
def cbrace : Char := Char.ofNat 125

/-- ASCII lower-casing, as Python str.lower acts on the ASCII range.
All identifiers handled by the validator are ASCII. -/
def lowerChar (c : Char) : Char :=
  match c with
  | 'A' => 'a' | 'B' => 'b' | 'C' => 'c' | 'D' => 'd' | 'E' => 'e' | 'F' => 'f'
  | 'G' => 'g' | 'H' => 'h' | 'I' => 'i' | 'J' => 'j' | 'K' => 'k' | 'L' => 'l'
  | 'M' => 'm' | 'N' => 'n' | 'O' => 'o' | 'P' => 'p' | 'Q' => 'q' | 'R' => 'r'
  | 'S' => 's' | 'T' => 't' | 'U' => 'u' | 'V' => 'v' | 'W' => 'w' | 'X' => 'x'
  | 'Y' => 'y' | 'Z' => 'z'
  | c => c

/-- Lower-case a character list. -/
def lowerL (l : List Char) : List Char := l.map lowerChar

/-- Lower-case a string (Python s.lower() on ASCII data). -/
def lowerStr (s : String) : String := String.mk (lowerL s.data)

/-- A word character in the regex sense: [a-zA-Z0-9_]. -/
def isWordChar (c : Char) : Bool := c.isAlpha || c.isDigit || c = '_'

/-- A character that may start an identifier: [a-zA-Z_]. -/
def isIdentStart (c : Char) : Bool := c.isAlpha || c = '_'

/-- A whitespace character in the regex sense of backslash-s for ASCII input,
which is also the set stripped by Python str.strip(). -/
def isSpaceRe (c : Char) : Bool :=
  c = ' ' || c = '\t' || c = '\n' || c = '\r' || c = '\x0b' || c = '\x0c'

/-- Python str.strip(): drop leading and trailing whitespace. -/
def pyStrip (s : String) : String :=
  String.mk (((s.data.dropWhile isSpaceRe).reverse.dropWhile isSpaceRe).reverse)

/-- The trailing-semicolon normalization applied by the pipeline and the retry
loop: if sql.endswith(";") then sql = sql[:-1], dropping exactly one. -/
def stripSemi (s : String) : String :=
  if s.data.getLast? = some ';' then String.mk s.data.dropLast else s

/-- Substring occurrence at any offset of a character list. -/
def containsSubL (pat : List Char) : List Char → Bool
  | [] => pat.isEmpty
  | c :: rest => pat.isPrefixOf (c :: rest) || containsSubL pat rest

/-- Python substring membership test, pat in s. -/
def containsSub (pat : String) (s : String) : Bool :=
  containsSubL pat.data s.data

/-- The captures of re.findall applied with pattern double-quote,
capture of non-quote characters, double-quote. Scans left to right,
non-overlapping; an unmatched opening quote yields no further matches.
Fuel-based so that the kernel can evaluate it; the wrapper passes the
input length, which always suffices. -/
def findQuotedF : Nat → List Char → List (List Char)
  | 0, _ => []
  | _ + 1, [] => []
  | fuel + 1, c :: rest =>
    if c = dquote then
      match rest.dropWhile (fun d => !(d = dquote)) with
      | [] => []
      | _ :: tail => rest.takeWhile (fun d => !(d = dquote)) :: findQuotedF fuel tail
    else findQuotedF fuel rest

/-- All double-quoted spans of a statement, in order (query_chain.py line 452). -/
def findQuoted (l : List Char) : List (List Char) := findQuotedF l.length l

/-- re.sub of the pattern quote, non-quote characters, quote with the empty
replacement: removes each non-overlapping quoted span including both quote
characters; an unmatched opening quote is left verbatim together with the
remainder (the regex cannot match anywhere at or after it). -/
def removeDelimsF (q : Char) : Nat → List Char → List Char
  | 0, l => l
  | _ + 1, [] => []
  | fuel + 1, c :: rest =>
    if c = q then
      match rest.dropWhile (fun d => !(d = q)) with
      | [] => c :: rest
      | _ :: tail => removeDelimsF q fuel tail
    else c :: removeDelimsF q fuel rest

/-- Wrapper with adequate fuel. -/
def removeDelims (q : Char) (l : List Char) : List Char := removeDelimsF q l.length l

/-- re.findall with pattern: word boundary, [a-zA-Z_], [a-zA-Z0-9_]*, word
boundary. Equivalently: the maximal word-character runs that do not start
with a digit (a run starting with a digit yields no match at any offset). -/
def tokenizeF : Nat → List Char → List (List Char)
  | 0, _ => []
  | _ + 1, [] => []
  | fuel + 1, c :: rest =>
    if isWordChar c then
      let rest2 := rest.dropWhile isWordChar
      if isIdentStart c then (c :: rest.takeWhile isWordChar) :: tokenizeF fuel rest2
      else tokenizeF fuel rest2
    else tokenizeF fuel rest

/-- Wrapper with adequate fuel. -/
def tokenize (l : List Char) : List (List Char) := tokenizeF l.length l

/-- Match the regex fragment: whitespace+, capture of [a-zA-Z_][a-zA-Z0-9_]*.
Returns the capture and the remainder after it. Because the whitespace class
and the word-character class are disjoint, greedy matching needs no
backtracking: the capture is the maximal word run, and the match fails
exactly when there is no leading whitespace or the next character cannot
start an identifier. -/
def matchTbl (l : List Char) : Option (List Char × List Char) :=
  if (l.takeWhile isSpaceRe).isEmpty then Option.none
  else
    match l.dropWhile isSpaceRe with
    | [] => Option.none
    | c :: r =>
      if isIdentStart c then some (c :: r.takeWhile isWordChar, r.dropWhile isWordChar)
      else Option.none

/-- Match the fragment: whitespace+, capture, whitespace+, capture
(the alias form FROM table alias). -/
def matchPair (l : List Char) : Option (List Char × List Char × List Char) :=
  match matchTbl l with
  | Option.none => Option.none
  | some (t, l2) =>
    match matchTbl l2 with
    | Option.none => Option.none
    | some (a, l3) => some (t, a, l3)

/-- Match the fragment: whitespace+, capture, whitespace+, literal AS,
whitespace+, capture (the alias form FROM table AS alias); the input is
already lower-cased, so the literal is written in lower case. -/
def matchPairAs (l : List Char) : Option (List Char × List Char × List Char) :=
  match matchTbl l with
  | Option.none => Option.none
  | some (t, l2) =>
    if (l2.takeWhile isSpaceRe).isEmpty then Option.none
    else
      match l2.dropWhile isSpaceRe with
      | 'a' :: 's' :: l3 =>
        match matchTbl l3 with
        | Option.none => Option.none
        | some (a, l4) => some (t, a, l4)
      | _ => Option.none

/-- re.findall of: word boundary, keyword (case-insensitively), whitespace+,
identifier capture — used for the final FROM/JOIN table check
(query_chain.py lines 503-504). Scans left to right; after a successful
match scanning resumes at the match end (whose last character is a word
character, hence the boundary flag becomes true); after a failure the scan
advances one character. The captures keep their original case. -/
def scanTablesF (kw : List Char) : Nat → Bool → List Char → List (List Char)
  | 0, _, _ => []
  | _ + 1, _, [] => []
  | fuel + 1, prevW, c :: rest =>
    if !prevW && (((c :: rest).take kw.length).map lowerChar == kw) then
      match matchTbl ((c :: rest).drop kw.length) with
      | some (cap, rest') => cap :: scanTablesF kw fuel true rest'
      | Option.none => scanTablesF kw fuel (isWordChar c) rest
    else scanTablesF kw fuel (isWordChar c) rest

/-- re.findall of: word boundary, keyword, whitespace+, identifier,
whitespace+, identifier — the FROM/JOIN w alias patterns of
extract_table_aliases. Runs on the lower-cased statement (the Python code
scans the original with re.IGNORECASE and lower-cases every capture, which
is equivalent because the pattern's character classes are closed under
case). -/
def scanPairsF (kw : List Char) : Nat → Bool → List Char → List (List Char × List Char)
  | 0, _, _ => []
  | _ + 1, _, [] => []
  | fuel + 1, prevW, c :: rest =>
    if !prevW && ((c :: rest).take kw.length == kw) then
      match matchPair ((c :: rest).drop kw.length) with
      | some (t, a, rest') => (t, a) :: scanPairsF kw fuel true rest'
      | Option.none => scanPairsF kw fuel (isWordChar c) rest
    else scanPairsF kw fuel (isWordChar c) rest

/-- re.findall of: word boundary, FROM or JOIN, whitespace+, identifier,
whitespace+, AS, whitespace+, identifier — the explicit-AS alias pattern.
Also runs on the lower-cased statement. -/
def scanPairsAsF : Nat → Bool → List Char → List (List Char × List Char)
  | 0, _, _ => []
  | _ + 1, _, [] => []
  | fuel + 1, prevW, c :: rest =>
    if !prevW && ((c :: rest).take 4 == "from".data || (c :: rest).take 4 == "join".data) then
      match matchPairAs ((c :: rest).drop 4) with
      | some (t, a, rest') => (t, a) :: scanPairsAsF fuel true rest'
      | Option.none => scanPairsAsF fuel (isWordChar c) rest
    else scanPairsAsF fuel (isWordChar c) rest

/-- extract_table_aliases (query_chain.py lines 513-546): collect the alias
of every FROM/JOIN pattern whose table operand resolves (case-insensitively)
in validTables; the three findall passes are concatenated, and each alias is
recorded lower-cased. -/
def extract_table_aliases (sql : List Char) (validTables : List String) : List String :=
  let low := lowerL sql
  let pairs :=
    scanPairsF "from".data low.length false low ++
    scanPairsF "join".data low.length false low ++
    scanPairsAsF low.length false low
  pairs.filterMap fun p =>
    if validTables.contains (String.mk p.1) then some (String.mk p.2) else Option.none

/-- The FROM and JOIN first-operand captures of the final structural check,
in source order (FROM captures then JOIN captures), original case kept. -/
def fromJoinTables (sql : List Char) : List String :=
  (scanTablesF "from".data sql.length false sql ++
   scanTablesF "join".data sql.length false sql).map String.mk

/-- Search for the word (case-insensitively, word-boundary delimited on both
sides) anywhere in the list; the Boolean argument records whether the
previous character was a word character. Models backslash-b W backslash-b
for a keyword W made of word characters. -/
def hasWordCI (w : List Char) : Bool → List Char → Bool
  | _, [] => false
  | prevW, c :: rest =>
    (!prevW && ((c :: rest).take w.length).map lowerChar == w &&
      (match (c :: rest).drop w.length with
       | [] => true
       | d :: _ => !isWordChar d)) ||
    hasWordCI w (isWordChar c) rest

/-- The anchored pattern: start, whitespace*, SELECT (case-insensitively),
one whitespace character — _SELECT_ONLY_RE.search (query_chain.py line 401). -/
def selectOnlyCheck (l : List Char) : Bool :=
  let l1 := l.dropWhile isSpaceRe
  ((l1.take 6).map lowerChar == "select".data) &&
  (match l1.drop 6 with
   | c :: _ => isSpaceRe c
   | [] => false)

/-- _FORBIDDEN_RE.search (query_chain.py lines 402-405): a semicolon, an
inline comment marker, or any of the seven mutation keywords as
case-insensitive whole words. -/
def forbiddenCheck (l : List Char) : Bool :=
  l.contains ';' || containsSubL "--".data l ||
  hasWordCI "insert".data false l || hasWordCI "update".data false l ||
  hasWordCI "delete".data false l || hasWordCI "drop".data false l ||
  hasWordCI "alter".data false l || hasWordCI "truncate".data false l ||
  hasWordCI "create".data false l

/-- validate_sql (query_chain.py lines 408-414): safe and read-only means
the SELECT-prefix regex matches and the forbidden regex does not. -/
def validate_sql (sql : String) : Bool :=
  if !selectOnlyCheck sql.data then false
  else if forbiddenCheck sql.data then false
  else true

/-- A Python scalar as it occurs in database rows. A float is carried by its
display form, a datetime/date by its ISO-8601 text, and a Decimal by its
display form together with its binary-float image (the numeric conversion
performed by float() is library behaviour, not repository code). -/
inductive PyVal where
  | none
  | bool (b : Bool)
  | int (n : Int)
  | float (repr : String)
  | str (s : String)
  | datetime (iso : String)
  | date (iso : String)
  | decimal (repr : String) (asFloat : String)
deriving DecidableEq, Repr

/-- safe_serialize (query_chain.py lines 31-37): datetime/date to their
isoformat text, Decimal to float, and str(obj) — Python string conversion —
for every other value, with str() written out per constructor. -/
def safe_serialize : PyVal → PyVal
  | PyVal.datetime iso => PyVal.str iso
  | PyVal.date iso => PyVal.str iso
  | PyVal.decimal _ f => PyVal.float f
  | PyVal.none => PyVal.str "None"
  | PyVal.bool true => PyVal.str "True"
  | PyVal.bool false => PyVal.str "False"
  | PyVal.int n => PyVal.str (toString n)
  | PyVal.float r => PyVal.str r
  | PyVal.str s => PyVal.str s

/-- A row: mapping from column name to value, in column order. -/
def Row := List (String × PyVal)

/-- Column metadata as stored in kdmp-tables.json. -/
structure ColumnMeta where
  name : String
  type : String
  description : String := ""
deriving DecidableEq, Repr

/-- Table metadata as stored in kdmp-tables.json. -/
structure TableMeta where
  description : String := ""
  columns : List ColumnMeta
deriving DecidableEq, Repr

/-- One entry of the schema summary built by build_schema_summary: the dict
with keys table, description, columns (rendered description strings) and
sample_rows. -/
structure TableSummary where
  table : String
  description : String := ""
  columns : List String
  sample_rows : List (List (String × PyVal)) := []
deriving DecidableEq, Repr

/-- The rendered column description (query_chain.py lines 169-171). -/
def renderColumn (c : ColumnMeta) : String :=
  c.name ++ " (" ++ c.type ++ "): " ++ c.description

/-- Configured sample row count (SAMPLE_ROWS, default "2"). -/
def SAMPLE_ROWS : Nat := 2

/-- Configured row cap (MAX_ROWS, default "5000"). -/
def MAX_ROWS : Nat := 5000

/-- build_schema_summary (query_chain.py lines 140-196), on the
kdmp-tables.json path. The metadata source is the tables mapping
(association list; a JSON object has unique keys). The Python expression
relevant_tables if relevant_tables else tables.keys() treats both None and
the empty list as absent, so those two cases fall back to every known
table. A requested name missing from the mapping is skipped (with a logged
warning). Sample fetching is an external database call passed in as a
function; a fetch failure yields an empty sample set; fetched samples are
truncated to SAMPLE_ROWS and each value serialized. -/
def build_schema_summary (tables : List (String × TableMeta))
    (fetchSamples : String → Except String (List (List (String × PyVal))))
    (relevantTables : Option (List String)) : List TableSummary :=
  let tablesToProcess :=
    match relevantTables with
    | Option.none => tables.map Prod.fst
    | some l => if l.isEmpty then tables.map Prod.fst else l
  tablesToProcess.filterMap fun name =>
    match tables.lookup name with
    | Option.none => Option.none
    | some meta =>
      let safeSamples :=
        match fetchSamples name with
        | Except.ok rows =>
          (rows.take SAMPLE_ROWS).map fun r => r.map fun kv => (kv.1, safe_serialize kv.2)
        | Except.error _ => []
      some { table := name, description := meta.description,
             columns := meta.columns.map renderColumn, sample_rows := safeSamples }

/-- col.split(" ")[0].split("(")[0]: the prefix before the first space,
then before the first opening parenthesis. -/
def colNameOf (col : String) : String :=
  String.mk ((col.data.takeWhile (fun c => !(c = ' '))).takeWhile (fun c => !(c = '(')))

/-- The reserved keywords skipped by the bare-identifier check
(query_chain.py lines 439-446). -/
def sql_keywords : List String :=
  ["select", "from", "where", "join", "on", "as", "and", "or", "not", "in", "is", "null",
   "count", "sum", "avg", "max", "min", "distinct", "group", "by", "order", "having",
   "left", "right", "inner", "outer", "union", "all", "exists", "like", "between",
   "case", "when", "then", "else", "end", "limit", "offset", "desc", "asc",
   "true", "false", "cast", "extract", "year", "month", "day", "date", "timestamp",
   "varchar", "text", "integer", "bigint", "boolean", "numeric", "decimal", "with"]

/-- The function-name allowlist skipped by the bare-identifier check
(query_chain.py line 488). -/
def sql_functions : List String :=
  ["now", "current_date", "current_timestamp", "coalesce", "concat", "upper", "lower"]

/-- The lower-cased valid table names of a schema summary. -/
def validTablesOf (schema : List TableSummary) : List String :=
  schema.map fun t => lowerStr t.table

/-- The lower-cased valid column names of a schema summary, across all
tables. (The per-table column map the source also builds is written but
never read, so it is not modelled.) -/
def validColumnsOf (schema : List TableSummary) : List String :=
  schema.flatMap fun t => t.columns.map fun c => lowerStr (colNameOf c)

/-- Exact-case test of a quoted identifier against every column name of the
context (query_chain.py lines 464-477). -/
def isExactColumn (schema : List TableSummary) (q : String) : Bool :=
  schema.any fun t => t.columns.any fun c => colNameOf c == q

/-- The acceptance test for one bare identifier: skipped as keyword,
function name or alias, or resolved case-insensitively as a table or
column name. -/
def bareOk (validTables validColumns tableAliases : List String) (idf : String) : Bool :=
  let l := lowerStr idf
  sql_keywords.contains l || sql_functions.contains l || tableAliases.contains l ||
  validTables.contains l || validColumns.contains l

/-- enforce_schema_strictly (query_chain.py lines 417-510). Returns the pair
(is_valid, offending identifier). Quoted identifiers are collected from the
original statement and checked first, by exact case, each failure reported
as quoted_column:"name"; then string literals and quoted spans are removed,
the remainder is tokenized, and the first unresolvable bare identifier is
reported; finally every FROM/JOIN first operand must resolve
case-insensitively among the tables, reported as table:name. -/
def enforce_schema_strictly (sql : String) (schema : List TableSummary) :
    Bool × Option String :=
  let validTables := validTablesOf schema
  let validColumns := validColumnsOf schema
  let tableAliases := extract_table_aliases sql.data validTables
  let quotedIdentifiers := (findQuoted sql.data).map String.mk
  let sqlForChecking := removeDelims squote sql.data
  let sqlWithoutQuoted := removeDelims dquote sqlForChecking
  let potentialIdentifiers := (tokenize sqlWithoutQuoted).map String.mk
  match quotedIdentifiers.find? (fun q => !isExactColumn schema q) with
  | some q => (false, some ("quoted_column:\"" ++ q ++ "\""))
  | Option.none =>
    match potentialIdentifiers.find?
        (fun idf => !bareOk validTables validColumns tableAliases idf) with
    | some idf => (false, some idf)
    | Option.none =>
      match (fromJoinTables sql.data).find?
          (fun t => !validTables.contains (lowerStr t)) with
      | some t => (false, some ("table:" ++ t))
      | Option.none => (true, Option.none)

/-- A JSON value as produced by json.loads. Numbers are carried as integers;
no claim depends on fractional numeric values. -/
inductive Json where
  | null
  | bool (b : Bool)
  | num (n : Int)
  | str (s : String)
  | arr (xs : List Json)
  | obj (kvs : List (String × Json))

mutual

/-- Structural equality of JSON values (Python == on decoded values). -/
def Json.beq : Json → Json → Bool
  | Json.null, Json.null => true
  | Json.bool a, Json.bool b => a == b
  | Json.num a, Json.num b => a == b
  | Json.str a, Json.str b => a == b
  | Json.arr xs, Json.arr ys => Json.beqArr xs ys
  | Json.obj xs, Json.obj ys => Json.beqObj xs ys
  | _, _ => false

/-- Elementwise equality of JSON arrays. -/
def Json.beqArr : List Json → List Json → Bool
  | [], [] => true
  | x :: xs, y :: ys => Json.beq x y && Json.beqArr xs ys
  | _, _ => false

/-- Entrywise equality of JSON objects. -/
def Json.beqObj : List (String × Json) → List (String × Json) → Bool
  | [], [] => true
  | (k1, v1) :: xs, (k2, v2) :: ys => k1 == k2 && Json.beq v1 v2 && Json.beqObj xs ys
  | _, _ => false

end

instance : BEq Json := ⟨Json.beq⟩

/-- Whether a JSON value is a string. -/
def Json.isStr : Json → Bool
  | Json.str _ => true
  | _ => false

/-- A Python exception escaping the modelled code: the ValueError raised by
ask_llm_for_sql (carrying its message), the TypeError raised by the
membership test or indexing on a non-dict json.loads result, and the
AttributeError raised by .strip() on a non-string sql value. -/
inductive PyError where
  | valueError (msg : String)
  | typeError
  | attributeError
deriving DecidableEq, Repr

/-- The span matched by re.search of: brace, any characters (greedy, DOTALL),
brace — from the first opening brace that has some closing brace after it,
up to and including the last closing brace of the text. -/
def firstSpan (l : List Char) : Option (List Char) :=
  let a := l.dropWhile (fun c => !(c = obrace))
  match a with
  | [] => Option.none
  | _ :: rest =>
    if rest.contains cbrace then
      some ((a.reverse.dropWhile (fun c => !(c = cbrace))).reverse)
    else Option.none

/-- The body of the try-block applied to a successfully parsed JSON value:
Python evaluates "sql" in obj and then obj["sql"]. On a dict this is an
association lookup; on a list or a string the membership test can succeed
(element equality, substring) but indexing with a string then raises
TypeError; on any other value the membership test itself raises TypeError.
A `some` result is returned (or raised) by ask_llm_for_sql; `none` means
control falls through towards the final raise ValueError. -/
def handleParsedSql (j : Json) : Option (Except PyError Json) :=
  match j with
  | Json.obj kvs =>
    match kvs.lookup "sql" with
    | some v => some (Except.ok v)
    | Option.none => Option.none
  | Json.arr xs =>
    if xs.contains (Json.str "sql") then some (Except.error PyError.typeError)
    else Option.none
  | Json.str s =>
    if containsSub "sql" s then some (Except.error PyError.typeError)
    else Option.none
  | _ => some (Except.error PyError.typeError)

/-- The completion-response extraction of ask_llm_for_sql (query_chain.py
lines 380-397), with json.loads abstracted as `loads` (none models
json.JSONDecodeError). First the whole text is parsed; only on a parse
failure is the first greedy brace span parsed instead; any outcome other
than a dict containing the key sql ends in the raise ValueError carrying
the raw text, except for the TypeError cases of handleParsedSql, which
escape both try-blocks (their except clauses catch only JSONDecodeError). -/
def ask_llm_for_sql (loads : String → Option Json) (text : String) :
    Except PyError Json :=
  let vErr : Except PyError Json :=
    Except.error (PyError.valueError ("Invalid JSON response from LLM:\n" ++ text))
  match loads text with
  | some j => (handleParsedSql j).getD vErr
  | Option.none =>
    match firstSpan text.data with
    | some sp =>
      match loads (String.mk sp) with
      | some j => (handleParsedSql j).getD vErr
      | Option.none => vErr
    | Option.none => vErr

/-- The outcome of one generation attempt: the sql field produced by the
language-model call, or an exception raised during generation/extraction. -/
inductive GenResult where
  | ok (sql : String)
  | exn (msg : String)

/-- The fixed fallback statement returned on retry exhaustion
(query_chain.py line 586). -/
def fallbackSql : String :=
  "SELECT \x27Gagal generate SQL yang valid\x27::text as error"

/-- Print an optional offending identifier the way a Python f-string prints
it (None becomes the text None; in the source this case is unreachable). -/
def optionIdStr : Option String → String
  | some s => s
  | Option.none => "None"

/-- The loop body of ask_llm_for_sql_with_retry (query_chain.py lines
549-586). `gen i e` abstracts attempt i (attempt 0 is the plain path,
attempts past 0 the feedback path receiving the last error e); any
exception from generation is caught and recorded. Each produced statement
is stripped, loses one trailing semicolon, and must pass validate_sql and
enforce_schema_strictly. The second component counts generation attempts
made. -/
def retryLoop (gen : Nat → Option String → GenResult) (schema : List TableSummary) :
    Nat → Nat → Option String → String × Nat
  | 0, attempts, _ => (fallbackSql, attempts)
  | n + 1, attempts, lastError =>
    match gen attempts lastError with
    | GenResult.exn m =>
      retryLoop gen schema n (attempts + 1) (some ("Error dalam generate SQL: " ++ m))
    | GenResult.ok raw =>
      let sql := stripSemi (pyStrip raw)
      if !validate_sql sql then
        retryLoop gen schema n (attempts + 1)
          (some "SQL harus dimulai dengan SELECT dan tidak boleh mengandung operasi modifikasi data")
      else
        let r := enforce_schema_strictly sql schema
        if r.1 then (sql, attempts + 1)
        else
          retryLoop gen schema n (attempts + 1)
            (some ("Nama tabel/kolom \x27" ++ optionIdStr r.2 ++
              "\x27 tidak ditemukan dalam schema. Gunakan hanya nama yang ada di kdmp-tables.json"))

/-- ask_llm_for_sql_with_retry: the schema summary is built once, for the
whole metadata source (no argument, hence the None branch), and the loop
runs max_retries + 1 times. -/
def ask_llm_for_sql_with_retry (gen : Nat → Option String → GenResult)
    (tables : List (String × TableMeta))
    (fetchSamples : String → Except String (List (List (String × PyVal))))
    (maxRetries : Nat) : String × Nat :=
  let schema := build_schema_summary tables fetchSamples Option.none
  retryLoop gen schema (maxRetries + 1) 0 Option.none

/-- The result of execute_read_query: column metadata in engine order and
rows as column-name/value mappings. -/
structure QueryResult where
  columns : List String
  rows : List (List (String × PyVal))
deriving DecidableEq, Repr

/-- execute_read_query (db/connection.py lines 12-21): fetch all rows,
truncate to max_rows, and zip each row tuple with the column names in
engine order. -/
def execute_read_query (columns : List String) (fetched : List (List PyVal))
    (max_rows : Nat) : QueryResult :=
  { columns := columns, rows := (fetched.take max_rows).map fun r => columns.zip r }

/-- A structured pipeline result: the error dict (keys error, generated_sql
and optionally details / suggestion) or the success dict (text, the table
payload — whose constant type field "table" is omitted — and the meta
dict). -/
inductive PipeResult where
  | errorResult (error : String) (generated_sql : String)
      (details : Option String) (suggestion : Option String)
  | success (text : String) (payloadColumns : List String)
      (payloadRows : List (List PyVal)) (row_count : Nat) (generated_sql : String)
deriving DecidableEq, Repr

/-- The external collaborators and data consumed by one run_query_pipeline
request: the relevant-table selection (search_relevant_tables catches its
own failures and always returns a list), the raw completion text and the
json.loads behaviour, the kdmp-tables.json content, the sample fetcher,
the outcome of the database execution (engine error, or column metadata
with fetched row tuples), and the summarizer. -/
structure PipelineEnv where
  relevantTables : List String
  completionText : String
  loads : String → Option Json
  tables : List (String × TableMeta)
  fetchSamples : String → Except String (List (List (String × PyVal)))
  executeOutcome : Except String (List String × List (List PyVal))
  summarize : String → List (List (String × PyVal)) → String

/-- run_query_pipeline (query_chain.py lines 657-729). The generation step
calls ask_llm_for_sql directly (not the retry wrapper); its ValueError, and
the AttributeError of .strip() on a non-string sql value, propagate to the
caller as `Except.error`. The canned-message check runs before validation;
validate_sql runs before enforce_schema_strictly; only the database
execution is guarded by try/except; on success every row value is
serialized, the payload keeps engine column order, and the summarizer sees
at most the first five serialized rows. -/
def run_query_pipeline (env : PipelineEnv) (question : String) :
    Except PyError PipeResult :=
  match ask_llm_for_sql env.loads env.completionText with
  | Except.error e => Except.error e
  | Except.ok v =>
    match v with
    | Json.str s =>
      let rawSql := stripSemi (pyStrip s)
      if containsSub "Gagal generate SQL yang valid" rawSql ||
         containsSub "Data tidak tersedia" rawSql then
        Except.ok (PipeResult.errorResult
          "Tidak dapat membuat query yang valid untuk pertanyaan ini" rawSql
          Option.none
          (some "Coba perbaiki pertanyaan atau pastikan data yang dicari tersedia dalam sistem"))
      else
        let schemaSummary :=
          build_schema_summary env.tables env.fetchSamples (some env.relevantTables)
        if !validate_sql rawSql then
          Except.ok (PipeResult.errorResult "Generated SQL failed final validation."
            rawSql Option.none Option.none)
        else
          let r := enforce_schema_strictly rawSql schemaSummary
          if !r.1 then
            Except.ok (PipeResult.errorResult
              ("Query uses invalid column or table: " ++ optionIdStr r.2)
              rawSql Option.none Option.none)
          else
            match env.executeOutcome with
            | Except.error d =>
              Except.ok (PipeResult.errorResult "Query execution failed" rawSql
                (some d) Option.none)
            | Except.ok (cols, fetched) =>
              let result := execute_read_query cols fetched MAX_ROWS
              let rows := result.rows.map fun r => r.map fun kv => (kv.1, safe_serialize kv.2)
              Except.ok (PipeResult.success
                (env.summarize question (rows.take 5))
                result.columns
                (rows.map fun r => r.map Prod.snd)
                rows.length rawSql)
    | _ => Except.error PyError.attributeError

/-- Modelled from the spec: the acceptance condition of the Safety Validator
in the claim's own words — the trimmed text begins with SELECT
(case-insensitively) and the statement contains no semicolon, no inline
comment marker and none of the seven mutation keywords as case-insensitive
whole words. Used only to compare the claim against validate_sql. -/
def claimSafeAccept (sql : String) : Bool :=
  (((sql.data.dropWhile isSpaceRe).take 6).map lowerChar == "select".data) &&
  !(sql.data.contains ';') && !containsSubL "--".data sql.data &&
  !hasWordCI "insert".data false sql.data && !hasWordCI "update".data false sql.data &&
  !hasWordCI "delete".data false sql.data && !hasWordCI "drop".data false sql.data &&
  !hasWordCI "alter".data false sql.data && !hasWordCI "truncate".data false sql.data &&
  !hasWordCI "create".data false sql.data

/-- Modelled from the spec, amended: as claimSafeAccept but the SELECT
prefix must be followed by a whitespace character, as the anchored regex of
the source demands. -/
def amendedSafeAccept (sql : String) : Bool :=
  selectOnlyCheck sql.data &&
  !(sql.data.contains ';') && !containsSubL "--".data sql.data &&
  !hasWordCI "insert".data false sql.data && !hasWordCI "update".data false sql.data &&
  !hasWordCI "delete".data false sql.data && !hasWordCI "drop".data false sql.data &&
  !hasWordCI "alter".data false sql.data && !hasWordCI "truncate".data false sql.data &&
  !hasWordCI "create".data false sql.data

/-- The first quoted identifier of the statement failing the exact-case
column check — the one enforce_schema_strictly reports. -/
def firstBadQuoted (sql : String) (schema : List TableSummary) : Option String :=
  ((findQuoted sql.data).map String.mk).find? (fun q => !isExactColumn schema q)

/-- The rejection message for a quoted identifier. -/
def quotedReport (q : String) : String := "quoted_column:\"" ++ q ++ "\""

/-- Whether the extraction step returned a string-valued sql field — the only
case in which run_query_pipeline proceeds without raising. -/
def isStrOk : Except PyError Json → Bool
  | Except.ok (Json.str _) => true
  | _ => false

/-- A one-table schema context with table cooperatives and column name,
as used by the spec's own examples. -/
def demoSchema : List TableSummary :=
  [{ table := "cooperatives", columns := ["name (varchar): Cooperative name"] }]

/-- The spec's first bare-identifier example statement. -/
def qA : String := "SELECT NAME FROM cooperatives"

/-- The spec's second bare-identifier example statement. -/
def qB : String := "SELECT name FROM COOPERATIVES"

/-- A statement that begins with SELECT but not followed by whitespace. -/
def starSql : String := "SELECT*FROM cooperatives"

/-- The spec's safety-gate example statement. -/
def dropExampleSql : String := "SELECT * FROM cooperatives; DROP TABLE cooperatives"

/-- A completion whose JSON object carries the safety-gate example. -/
def c2CompletionText : String :=
  "\x7b\"sql\": \"SELECT * FROM cooperatives; DROP TABLE cooperatives\"\x7d"

/-- json.loads behaviour on c2CompletionText. -/
def loadsC2 : String → Option Json := fun s =>
  if s = c2CompletionText then some (Json.obj [("sql", Json.str dropExampleSql)])
  else Option.none

/-- A completion carrying a non-string sql value, and json.loads on it. -/
def loads9 : String → Option Json := fun s =>
  if s = "\x7b\"sql\": 5\x7d" then some (Json.obj [("sql", Json.num 5)]) else Option.none

/-- A pipeline environment whose completion is unparsable text without any
brace span, with inert collaborators. -/
def cexEnv : PipelineEnv :=
  { relevantTables := []
    completionText := "not json at all"
    loads := fun _ => Option.none
    tables := []
    fetchSamples := fun _ => Except.error "no db"
    executeOutcome := Except.error "no db"
    summarize := fun _ _ => "" }

/-- A generator that always produces an unsafe statement. -/
def genAlwaysBad : Nat → Option String → GenResult := fun _ _ => GenResult.ok "DROP TABLE x"

/-- A sample fetcher that always fails. -/
def fetchNone : String → Except String (List (List (String × PyVal))) :=
  fun _ => Except.error "no db"

/-- A two-table metadata source for the schema-context claims. -/
def tables8 : List (String × TableMeta) :=
  [("cooperatives", { columns := [{ name := "name", type := "varchar" }] }),
   ("provinces", { columns := [{ name := "province_id", type := "bigint" }] })]

/-- A request naming one resolvable and one nonexistent table. -/
def rel8 : List String := ["cooperatives", "ghost"]

theorem lookup_isSome_of_mem_keys (tables : List (String × TableMeta)) (k : String)
    (h : k ∈ tables.map Prod.fst) : (tables.lookup k).isSome = true := by
  induction tables with
  | nil => simp at h
  | cons p rest ih =>
    simp only [List.map_cons, List.mem_cons] at h
    by_cases hk : k = p.1
    · simp [List.lookup, hk]
    · have h2 : k ∈ rest.map Prod.fst := by
        rcases h with h | h
        · exact absurd h hk
        · exact h
      have hbeq : (k == p.1) = false := beq_eq_false_iff_ne.mpr hk
      have hstep : List.lookup k (p :: rest) = List.lookup k rest := by
        simp [List.lookup, hbeq]
      rw [hstep]
      exact ih h2

theorem bss_map_table (tables : List (String × TableMeta))
    (fetch : String → Except String (List (List (String × PyVal))))
    (proc : List String) :
    ((proc.filterMap fun name =>
        match tables.lookup name with
        | Option.none => Option.none
        | some meta =>
          let safeSamples :=
            match fetch name with
            | Except.ok rows =>
              (rows.take SAMPLE_ROWS).map fun r => r.map fun kv => (kv.1, safe_serialize kv.2)
            | Except.error _ => []
          some { table := name, description := meta.description,
                 columns := meta.columns.map renderColumn,
                 sample_rows := safeSamples : TableSummary }).map
        (fun d => d.table)) =
      proc.filter (fun n => (tables.lookup n).isSome) := by
  induction proc with
  | nil => rfl
  | cons a l ih =>
    cases h : tables.lookup a with
    | none => simpa [List.filterMap_cons, List.filter_cons, h] using ih
    | some m => simpa [List.filterMap_cons, List.filter_cons, h] using ih

/-- C10: passing the empty table list to build_schema_summary is the same as
omitting the argument — the Python truthiness test treats them alike — and
the resulting context holds one descriptor per table of the metadata
source, in source order. -/
theorem c10_empty_list_loads_all_tables (tables : List (String × TableMeta))
    (fetch : String → Except String (List (List (String × PyVal)))) :
    build_schema_summary tables fetch (some []) = build_schema_summary tables fetch Option.none ∧
    (build_schema_summary tables fetch (some [])).map (fun d => d.table) = tables.map Prod.fst := by
  constructor
  · rfl
  · have h := bss_map_table tables fetch (tables.map Prod.fst)
    have hall : (tables.map Prod.fst).filter (fun n => (tables.lookup n).isSome) =
        tables.map Prod.fst :=
      List.filter_eq_self.mpr fun n hn => lookup_isSome_of_mem_keys tables n hn
    exact h.trans hall

/-- C7: execute_read_query truncates the fetched rows to the cap, keeps the
engine's column order, and with a cap of 5000 against 6000 fetched rows
returns exactly 5000 rows. -/
theorem c7_row_cap (columns : List String) (fetched : List (List PyVal)) (n : Nat) :
    (execute_read_query columns fetched n).columns = columns ∧
    (execute_read_query columns fetched n).rows.length = min n fetched.length ∧
    (execute_read_query columns fetched n).rows.length ≤ n ∧
    (execute_read_query ["id"] (List.replicate 6000 [PyVal.int 1]) 5000).rows.length = 5000 := by
  refine ⟨rfl, ?_, ?_, ?_⟩
  · simp [execute_read_query]
  · simp [execute_read_query]
  · simp only [execute_read_query, List.length_map, List.length_take, List.length_replicate]
    norm_num

/-- C6 counterexample: the serializer does not pass JSON-native integers
through unchanged — it returns their Python string form. -/
theorem c6_cex_int_stringified :
    safe_serialize (PyVal.int 5) = PyVal.str "5" ∧
    decide (safe_serialize (PyVal.int 5) = PyVal.int 5) = false := by
  exact ⟨rfl, rfl⟩

/-- C6 amended: safe_serialize maps datetime and date values to their
ISO-8601 text, Decimal values to their float image, and every other value —
including the JSON-native integers, floats, booleans and null — to its
Python string form; only values that are already strings come back
unchanged. -/
theorem c6_serializer_amended :
    (∀ iso, safe_serialize (PyVal.datetime iso) = PyVal.str iso) ∧
    (∀ iso, safe_serialize (PyVal.date iso) = PyVal.str iso) ∧
    (∀ r f, safe_serialize (PyVal.decimal r f) = PyVal.float f) ∧
    (∀ s, safe_serialize (PyVal.str s) = PyVal.str s) ∧
    (∀ n : Int, safe_serialize (PyVal.int n) = PyVal.str (toString n)) ∧
    (∀ b, safe_serialize (PyVal.bool b) = PyVal.str (if b then "True" else "False")) ∧
    safe_serialize PyVal.none = PyVal.str "None" ∧
    (∀ r, safe_serialize (PyVal.float r) = PyVal.str r) := by
  refine ⟨fun _ => rfl, fun _ => rfl, fun _ _ => rfl, fun _ => rfl, fun _ => rfl, ?_,
    rfl, fun _ => rfl⟩
  intro b
  cases b <;> rfl

theorem mem_keys_of_lookup_isSome (tables : List (String × TableMeta)) (k : String)
    (h : (tables.lookup k).isSome = true) : k ∈ tables.map Prod.fst := by
  induction tables with
  | nil => simp [List.lookup] at h
  | cons p rest ih =>
    by_cases hk : k = p.1
    · simp [hk]
    · have hbeq : (k == p.1) = false := beq_eq_false_iff_ne.mpr hk
      have hstep : List.lookup k (p :: rest) = List.lookup k rest := by
        simp [List.lookup, hbeq]
      rw [hstep] at h
      simp [ih h]

/-- C8: a context built for a nonempty duplicate-free request holds exactly
the resolvable requested names in request order (the filter equation), hence
each descriptor at most once, every descriptor's table both requested and
present in the metadata source, and no descriptor at all for a requested
name absent from the metadata source. -/
theorem c8_requested_subset_only (tables : List (String × TableMeta))
    (fetch : String → Except String (List (List (String × PyVal))))
    (rel : List String) (hne : rel ≠ []) (hnd : rel.Nodup) :
    ((build_schema_summary tables fetch (some rel)).map (fun d => d.table) =
      rel.filter (fun n => (tables.lookup n).isSome)) ∧
    ((build_schema_summary tables fetch (some rel)).map (fun d => d.table)).Nodup ∧
    ((build_schema_summary tables fetch (some rel)).all
      (fun d => rel.contains d.table && (tables.map Prod.fst).contains d.table)) = true ∧
    (rel.all (fun n => (tables.map Prod.fst).contains n ||
      !(((build_schema_summary tables fetch (some rel)).map (fun d => d.table)).contains n)))
      = true := by
  match rel, hne with
  | a :: l, _ =>
  have hmap : (build_schema_summary tables fetch (some (a :: l))).map (fun d => d.table) =
      (a :: l).filter (fun n => (tables.lookup n).isSome) :=
    bss_map_table tables fetch (a :: l)
  refine ⟨hmap, ?_, ?_, ?_⟩
  · rw [hmap]
    exact hnd.filter _
  · rw [List.all_eq_true]
    intro d hd
    have htbl : d.table ∈ (a :: l).filter (fun n => (tables.lookup n).isSome) := by
      rw [← hmap]
      exact List.mem_map_of_mem _ hd
    have hmem : (tables.lookup d.table).isSome = true := by
      simpa using List.of_mem_filter htbl
    have hrel := List.mem_of_mem_filter htbl
    have hkeys := mem_keys_of_lookup_isSome tables d.table hmem
    rw [Bool.and_eq_true, List.elem_iff, List.elem_iff]
    exact ⟨hrel, hkeys⟩
  · rw [List.all_eq_true]
    intro n hn
    by_cases hk : (tables.lookup n).isSome = true
    · have hker := mem_keys_of_lookup_isSome tables n hk
      rw [Bool.or_eq_true, List.elem_iff]
      exact Or.inl hker
    · have hnotin : n ∉ (build_schema_summary tables fetch (some (a :: l))).map
          (fun d => d.table) := by
        rw [hmap]
        intro hc
        exact hk (by simpa using List.of_mem_filter hc)
      rw [Bool.or_eq_true]
      refine Or.inr ?_
      simpa [List.elem_iff] using hnotin

/-- C1: whenever the statement contains a double-quoted identifier that does
not equal, character for character, the name of some column of some table
of the context, enforce_schema_strictly rejects the statement, and the
reported identifier is the first such failing quoted identifier — with no
case-insensitive fallback, since the check compares exact column names. -/
theorem c1_quoted_identifier_exact_case (sql : String) (schema : List TableSummary)
    (q : String) (hq : q ∈ (findQuoted sql.data).map String.mk)
    (hbad : isExactColumn schema q = false) :
    (enforce_schema_strictly sql schema).1 = false ∧
    (firstBadQuoted sql schema).isSome = true ∧
    (enforce_schema_strictly sql schema).2 = (firstBadQuoted sql schema).map quotedReport := by
  have hsome : (firstBadQuoted sql schema).isSome = true := by
    rw [firstBadQuoted, List.find?_isSome]
    exact ⟨q, hq, by simp [hbad]⟩
  obtain ⟨r, hr⟩ := Option.isSome_iff_exists.mp hsome
  have hr' : ((findQuoted sql.data).map String.mk).find?
      (fun q => !isExactColumn schema q) = some r := hr
  have henf : enforce_schema_strictly sql schema = (false, some (quotedReport r)) := by
    simp only [enforce_schema_strictly, hr', quotedReport]
  refine ⟨by rw [henf], hsome, ?_⟩
  rw [henf, hr]
  rfl

/-- C1 witness at a concrete input: the statement quotes Name while the
schema's column is name in lower case. -/
theorem c1_witness :
    ("Name" ∈ (findQuoted ("SELECT \"Name\" FROM cooperatives" : String).data).map String.mk) ∧
    isExactColumn demoSchema "Name" = false ∧
    ((enforce_schema_strictly "SELECT \"Name\" FROM cooperatives" demoSchema).1 = false ∧
     (firstBadQuoted "SELECT \"Name\" FROM cooperatives" demoSchema).isSome = true ∧
     (enforce_schema_strictly "SELECT \"Name\" FROM cooperatives" demoSchema).2 =
       (firstBadQuoted "SELECT \"Name\" FROM cooperatives" demoSchema).map quotedReport) :=
  ⟨by decide, by decide,
    c1_quoted_identifier_exact_case "SELECT \"Name\" FROM cooperatives" demoSchema "Name"
      (by decide) (by decide)⟩

/-- C2 counterexample: a statement whose trimmed text begins with SELECT and
contains no semicolon, no comment marker and no forbidden keyword — so the
claim accepts it — is nonetheless rejected by validate_sql, because the
anchored regex demands a whitespace character after SELECT. -/
theorem c2_cex_select_without_space :
    claimSafeAccept starSql = true ∧ validate_sql starSql = false := by
  exact ⟨by decide, by decide⟩

/-- C2 amended: validate_sql accepts a statement exactly when its text,
after leading whitespace, begins with SELECT followed by a whitespace
character (case-insensitively) and contains no semicolon, no inline comment
marker and none of the seven mutation keywords as case-insensitive whole
words; the spec's multi-statement example is rejected, and in the pipeline
that rejection is produced before and without schema enforcement — the
same error object comes back for every metadata source, sample fetcher and
execution outcome. -/
theorem c2_safety_validator_amended :
    (∀ sql : String, validate_sql sql = amendedSafeAccept sql) ∧
    validate_sql dropExampleSql = false ∧
    (∀ (rel : List String) (tables : List (String × TableMeta))
       (fetch : String → Except String (List (List (String × PyVal))))
       (execOut : Except String (List String × List (List PyVal)))
       (summ : String → List (List (String × PyVal)) → String) (question : String),
      run_query_pipeline
        { relevantTables := rel, completionText := c2CompletionText, loads := loadsC2,
          tables := tables, fetchSamples := fetch, executeOutcome := execOut,
          summarize := summ } question =
        Except.ok (PipeResult.errorResult "Generated SQL failed final validation."
          dropExampleSql Option.none Option.none)) := by
  refine ⟨?_, by decide, ?_⟩
  · intro sql
    have hval : validate_sql sql = (selectOnlyCheck sql.data && !forbiddenCheck sql.data) := by
      unfold validate_sql
      cases h1 : selectOnlyCheck sql.data <;> cases h2 : forbiddenCheck sql.data <;>
        simp [h1, h2]
    rw [hval]
    unfold amendedSafeAccept forbiddenCheck
    simp only [Bool.not_or, Bool.and_assoc]
  · intro rel tables fetch execOut summ question
    rfl

/-- C9 counterexample: on a completion whose sql key carries a JSON number,
the extractor returns that number — not a well-formed SQL string — so the
claim's dichotomy (well-formed sql string or failure) is false. -/
theorem c9_cex_nonstring_sql_value :
    ask_llm_for_sql loads9 "\x7b\"sql\": 5\x7d" = Except.ok (Json.num 5) ∧
    Json.isStr (Json.num 5) = false := by
  exact ⟨rfl, rfl⟩

/-- C9 amended: the extractor returns exactly the value found at the sql key
— of whatever JSON type — of the whole text parsed as JSON or, when that
parse fails, of the first greedy brace span; otherwise it fails with the
invalid-response ValueError carrying the raw text, except that a non-dict
parse result which claims to contain sql (a list with that element, a
string with that substring, or any scalar) raises a TypeError instead. -/
theorem c9_extractor_amended (loads : String → Option Json) (text : String) :
    (∃ kvs v, ((loads text = some (Json.obj kvs)) ∨
        (loads text = Option.none ∧ ∃ sp, firstSpan text.data = some sp ∧
          loads (String.mk sp) = some (Json.obj kvs))) ∧
      kvs.lookup "sql" = some v ∧
      ask_llm_for_sql loads text = Except.ok v) ∨
    ask_llm_for_sql loads text =
      Except.error (PyError.valueError ("Invalid JSON response from LLM:\n" ++ text)) ∨
    ask_llm_for_sql loads text = Except.error PyError.typeError := by
  unfold ask_llm_for_sql
  cases hl : loads text with
  | some j =>
    cases j with
    | obj kvs =>
      cases hk : kvs.lookup "sql" with
      | some v =>
        exact Or.inl ⟨kvs, v, Or.inl rfl, hk, by simp [handleParsedSql, hk]⟩
      | none => exact Or.inr (Or.inl (by simp [handleParsedSql, hk]))
    | arr xs =>
      cases hc : xs.contains (Json.str "sql")
      · exact Or.inr (Or.inl (by simp [handleParsedSql, hc]))
      · exact Or.inr (Or.inr (by simp [handleParsedSql, hc]))
    | str s =>
      cases hc : containsSub "sql" s
      · exact Or.inr (Or.inl (by simp [handleParsedSql, hc]))
      · exact Or.inr (Or.inr (by simp [handleParsedSql, hc]))
    | null => exact Or.inr (Or.inr (by simp [handleParsedSql]))
    | bool b => exact Or.inr (Or.inr (by simp [handleParsedSql]))
    | num n => exact Or.inr (Or.inr (by simp [handleParsedSql]))
  | none =>
    cases hs : firstSpan text.data with
    | none => exact Or.inr (Or.inl rfl)
    | some sp =>
      cases hl2 : loads (String.mk sp) with
      | none => exact Or.inr (Or.inl (by simp [hl2]))
      | some j =>
        cases j with
        | obj kvs =>
          cases hk : kvs.lookup "sql" with
          | some v =>
            exact Or.inl ⟨kvs, v, Or.inr ⟨rfl, sp, rfl, hl2⟩, hk, by
              simp [hl2, handleParsedSql, hk]⟩
          | none => exact Or.inr (Or.inl (by simp [hl2, handleParsedSql, hk]))
        | arr xs =>
          cases hc : xs.contains (Json.str "sql")
          · exact Or.inr (Or.inl (by simp [hl2, handleParsedSql, hc]))
          · exact Or.inr (Or.inr (by simp [hl2, handleParsedSql, hc]))
        | str s =>
          cases hc : containsSub "sql" s
          · exact Or.inr (Or.inl (by simp [hl2, handleParsedSql, hc]))
          · exact Or.inr (Or.inr (by simp [hl2, handleParsedSql, hc]))
        | null => exact Or.inr (Or.inr (by simp [hl2, handleParsedSql]))
        | bool b => exact Or.inr (Or.inr (by simp [hl2, handleParsedSql]))
        | num n => exact Or.inr (Or.inr (by simp [hl2, handleParsedSql]))

/-- C5 counterexample: on an unparsable completion the pipeline does not
return a structured error value — the ValueError of ask_llm_for_sql
propagates to the caller (run_query_pipeline has no try/except around the
generation step; main.py converts the exception to an HTTP 500). -/
theorem c5_cex_malformed_completion_raises :
    run_query_pipeline cexEnv "q" =
      Except.error (PyError.valueError "Invalid JSON response from LLM:\nnot json at all") := by
  rfl

/-- C5 amended: run_query_pipeline returns a structured value — success or
an error object carrying the generated statement — whenever the extraction
step yields a string-valued sql field; when extraction fails or yields a
non-string value, the exception (ValueError, TypeError or AttributeError)
propagates to the caller instead. -/
theorem c5_pipeline_amended (env : PipelineEnv) (question : String) :
    (isStrOk (ask_llm_for_sql env.loads env.completionText) = true ∧
      ∃ r, run_query_pipeline env question = Except.ok r) ∨
    (isStrOk (ask_llm_for_sql env.loads env.completionText) = false ∧
      ∃ e, run_query_pipeline env question = Except.error e) := by
  unfold run_query_pipeline
  cases h : ask_llm_for_sql env.loads env.completionText with
  | error e => exact Or.inr ⟨rfl, e, rfl⟩
  | ok v =>
    cases v with
    | str s =>
      refine Or.inl ⟨rfl, ?_⟩
      dsimp only
      repeat' first
        | exact ⟨_, rfl⟩
        | split
    | null => exact Or.inr ⟨rfl, PyError.attributeError, rfl⟩
    | bool b => exact Or.inr ⟨rfl, PyError.attributeError, rfl⟩
    | num n => exact Or.inr ⟨rfl, PyError.attributeError, rfl⟩
    | arr xs => exact Or.inr ⟨rfl, PyError.attributeError, rfl⟩
    | obj kvs => exact Or.inr ⟨rfl, PyError.attributeError, rfl⟩

theorem retryLoop_step (gen : Nat → Option String → GenResult) (schema : List TableSummary)
    (n a : Nat) (le : Option String)
    (hfail : match gen a le with
      | GenResult.exn _ => True
      | GenResult.ok raw => validate_sql (stripSemi (pyStrip raw)) = false ∨
          (enforce_schema_strictly (stripSemi (pyStrip raw)) schema).1 = false) :
    ∃ le2, retryLoop gen schema (n + 1) a le = retryLoop gen schema n (a + 1) le2 := by
  cases hg : gen a le with
  | exn m =>
    exact ⟨some ("Error dalam generate SQL: " ++ m), by simp [retryLoop, hg]⟩
  | ok raw =>
    rw [hg] at hfail
    by_cases hv : validate_sql (stripSemi (pyStrip raw)) = false
    · exact ⟨some "SQL harus dimulai dengan SELECT dan tidak boleh mengandung operasi modifikasi data",
        by simp [retryLoop, hg, hv]⟩
    · have henf : (enforce_schema_strictly (stripSemi (pyStrip raw)) schema).1 = false := by
        rcases hfail with hx | hx
        · exact absurd hx hv
        · exact hx
      have hv' : validate_sql (stripSemi (pyStrip raw)) = true := by
        cases hvv : validate_sql (stripSemi (pyStrip raw))
        · exact absurd hvv hv
        · rfl
      exact ⟨some ("Nama tabel/kolom \x27" ++
          optionIdStr (enforce_schema_strictly (stripSemi (pyStrip raw)) schema).2 ++
          "\x27 tidak ditemukan dalam schema. Gunakan hanya nama yang ada di kdmp-tables.json"),
        by simp [retryLoop, hg, hv', henf]⟩

/-- C3: with maxRetries = 2, if every generation attempt raises or produces
a statement failing the safety check or the schema check, the retry loop
makes exactly 3 generation attempts, terminates, and returns the fixed
fallback statement — the attempt count is the second component returned by
the model. -/
theorem c3_retry_exhaustion (gen : Nat → Option String → GenResult)
    (tables : List (String × TableMeta))
    (fetch : String → Except String (List (List (String × PyVal))))
    (h : ∀ i e, match gen i e with
      | GenResult.exn _ => True
      | GenResult.ok raw => validate_sql (stripSemi (pyStrip raw)) = false ∨
          (enforce_schema_strictly (stripSemi (pyStrip raw))
            (build_schema_summary tables fetch Option.none)).1 = false) :
    ask_llm_for_sql_with_retry gen tables fetch 2 = (fallbackSql, 3) := by
  unfold ask_llm_for_sql_with_retry
  dsimp only
  obtain ⟨e1, h1⟩ := retryLoop_step gen _ 2 0 Option.none (h 0 Option.none)
  obtain ⟨e2, h2⟩ := retryLoop_step gen _ 1 1 e1 (h 1 e1)
  obtain ⟨e3, h3⟩ := retryLoop_step gen _ 0 2 e2 (h 2 e2)
  rw [show (2 : Nat) + 1 = 3 from rfl] at h1
  rw [h1, h2, h3]
  rfl

/-- C3 witness: a generator that always emits DROP TABLE x exhausts the
retry budget and yields the fallback after exactly 3 attempts. -/
theorem c3_witness :
    ask_llm_for_sql_with_retry genAlwaysBad [] fetchNone 2 = (fallbackSql, 3) :=
  c3_retry_exhaustion genAlwaysBad [] fetchNone (fun _ _ => Or.inl rfl)

theorem lc_isWordChar (c : Char) : isWordChar (lowerChar c) = isWordChar c := by
  unfold lowerChar
  split <;> rfl

theorem lc_isIdentStart (c : Char) : isIdentStart (lowerChar c) = isIdentStart c := by
  unfold lowerChar
  split <;> rfl

theorem lc_isSpaceRe (c : Char) : isSpaceRe (lowerChar c) = isSpaceRe c := by
  unfold lowerChar
  split <;> rfl

theorem lc_eq_dquote (c : Char) : lowerChar c = dquote ↔ c = dquote := by
  unfold lowerChar
  split <;> first | exact Iff.rfl | decide

theorem lc_eq_squote (c : Char) : lowerChar c = squote ↔ c = squote := by
  unfold lowerChar
  split <;> first | exact Iff.rfl | decide

theorem caseInv_pair {p : Char → Bool} (hp : ∀ c, p (lowerChar c) = p c)
    {a b : Char} (h : lowerChar a = lowerChar b) : p a = p b := by
  rw [← hp a, h, hp b]

theorem caseEq_length {l1 l2 : List Char} (h : l1.map lowerChar = l2.map lowerChar) :
    l1.length = l2.length := by
  have h2 := congrArg List.length h
  simpa using h2

theorem caseEq_isEmpty {l1 l2 : List Char} (h : l1.map lowerChar = l2.map lowerChar) :
    l1.isEmpty = l2.isEmpty := by
  cases l1 <;> cases l2 <;> simp_all

theorem takeWhile_caseEq {p : Char → Bool} (hp : ∀ c, p (lowerChar c) = p c) :
    ∀ (l1 l2 : List Char), l1.map lowerChar = l2.map lowerChar →
      (l1.takeWhile p).map lowerChar = (l2.takeWhile p).map lowerChar := by
  intro l1
  induction l1 with
  | nil =>
    intro l2 h
    cases l2 with
    | nil => rfl
    | cons b t2 => simp at h
  | cons a t1 ih =>
    intro l2 h
    cases l2 with
    | nil => simp at h
    | cons b t2 =>
      simp only [List.map_cons, List.cons.injEq] at h
      obtain ⟨h1, h2⟩ := h
      have hpab : p a = p b := caseInv_pair hp h1
      cases hpa : p a with
      | false =>
        have hpb : p b = false := by rw [← hpab]; exact hpa
        simp [List.takeWhile_cons, hpa, hpb]
      | true =>
        have hpb : p b = true := by rw [← hpab]; exact hpa
        simp only [List.takeWhile_cons, hpa, hpb, if_true, List.map_cons, List.cons.injEq]
        exact ⟨h1, ih t2 h2⟩

theorem dropWhile_caseEq {p : Char → Bool} (hp : ∀ c, p (lowerChar c) = p c) :
    ∀ (l1 l2 : List Char), l1.map lowerChar = l2.map lowerChar →
      (l1.dropWhile p).map lowerChar = (l2.dropWhile p).map lowerChar := by
  intro l1
  induction l1 with
  | nil =>
    intro l2 h
    cases l2 with
    | nil => rfl
    | cons b t2 => simp at h
  | cons a t1 ih =>
    intro l2 h
    cases l2 with
    | nil => simp at h
    | cons b t2 =>
      simp only [List.map_cons, List.cons.injEq] at h
      obtain ⟨h1, h2⟩ := h
      have hpab : p a = p b := caseInv_pair hp h1
      cases hpa : p a with
      | false =>
        have hpb : p b = false := by rw [← hpab]; exact hpa
        simp [List.dropWhile_cons, hpa, hpb, h1, h2]
      | true =>
        have hpb : p b = true := by rw [← hpab]; exact hpa
        simp only [List.dropWhile_cons, hpa, hpb, if_true]
        exact ih t2 h2

theorem matchTbl_caseEq {l1 l2 : List Char} (h : l1.map lowerChar = l2.map lowerChar) :
    (matchTbl l1 = Option.none ∧ matchTbl l2 = Option.none) ∨
    (∃ t1 r1 t2 r2, matchTbl l1 = some (t1, r1) ∧ matchTbl l2 = some (t2, r2) ∧
      t1.map lowerChar = t2.map lowerChar ∧ r1.map lowerChar = r2.map lowerChar) := by
  have htw := takeWhile_caseEq lc_isSpaceRe l1 l2 h
  have hdw := dropWhile_caseEq lc_isSpaceRe l1 l2 h
  have hemp : (l1.takeWhile isSpaceRe).isEmpty = (l2.takeWhile isSpaceRe).isEmpty :=
    caseEq_isEmpty htw
  cases he : (l1.takeWhile isSpaceRe).isEmpty with
  | true =>
    have he2 : (l2.takeWhile isSpaceRe).isEmpty = true := by rw [← hemp]; exact he
    exact Or.inl ⟨by simp [matchTbl, he], by simp [matchTbl, he2]⟩
  | false =>
    have he2 : (l2.takeWhile isSpaceRe).isEmpty = false := by rw [← hemp]; exact he
    cases hd1 : l1.dropWhile isSpaceRe with
    | nil =>
      have hd2 : l2.dropWhile isSpaceRe = [] := by
        rw [hd1] at hdw
        cases hdx : l2.dropWhile isSpaceRe with
        | nil => rfl
        | cons x xs => rw [hdx] at hdw; simp at hdw
      exact Or.inl ⟨by simp [matchTbl, he, hd1], by simp [matchTbl, he2, hd2]⟩
    | cons c r =>
      cases hd2 : l2.dropWhile isSpaceRe with
      | nil => rw [hd1, hd2] at hdw; simp at hdw
      | cons c2 r2 =>
        rw [hd1, hd2] at hdw
        simp only [List.map_cons, List.cons.injEq] at hdw
        obtain ⟨hc, hr⟩ := hdw
        have hident : isIdentStart c = isIdentStart c2 := caseInv_pair lc_isIdentStart hc
        cases hic : isIdentStart c with
        | false =>
          have hic2 : isIdentStart c2 = false := by rw [← hident]; exact hic
          exact Or.inl ⟨by simp [matchTbl, he, hd1, hic], by simp [matchTbl, he2, hd2, hic2]⟩
        | true =>
          have hic2 : isIdentStart c2 = true := by rw [← hident]; exact hic
          refine Or.inr ⟨c :: r.takeWhile isWordChar, r.dropWhile isWordChar,
            c2 :: r2.takeWhile isWordChar, r2.dropWhile isWordChar,
            by simp [matchTbl, he, hd1, hic], by simp [matchTbl, he2, hd2, hic2], ?_, ?_⟩
          · simp only [List.map_cons, List.cons.injEq]
            exact ⟨hc, takeWhile_caseEq lc_isWordChar r r2 hr⟩
          · exact dropWhile_caseEq lc_isWordChar r r2 hr

theorem scanTablesF_succ_cons (kw : List Char) (n : Nat) (pw : Bool) (c : Char)
    (rest : List Char) :
    scanTablesF kw (n + 1) pw (c :: rest) =
      if !pw && (((c :: rest).take kw.length).map lowerChar == kw) then
        match matchTbl ((c :: rest).drop kw.length) with
        | some (cap, rest') => cap :: scanTablesF kw n true rest'
        | Option.none => scanTablesF kw n (isWordChar c) rest
      else scanTablesF kw n (isWordChar c) rest := rfl

theorem scanTablesF_caseEq (kw : List Char) :
    ∀ (fuel : Nat) (pw : Bool) (l1 l2 : List Char), l1.map lowerChar = l2.map lowerChar →
      List.Forall₂ (fun a b => a.map lowerChar = b.map lowerChar)
        (scanTablesF kw fuel pw l1) (scanTablesF kw fuel pw l2) := by
  intro fuel
  induction fuel with
  | zero =>
    intro pw l1 l2 _
    exact List.Forall₂.nil
  | succ n ih =>
    intro pw l1 l2 h
    cases l1 with
    | nil =>
      cases l2 with
      | nil => exact List.Forall₂.nil
      | cons b t2 => simp at h
    | cons c rest =>
      cases l2 with
      | nil => simp at h
      | cons c2 rest2 =>
        have hmap : (c :: rest).map lowerChar = (c2 :: rest2).map lowerChar := h
        simp only [List.map_cons, List.cons.injEq] at h
        obtain ⟨hc, hr⟩ := h
        have hword : isWordChar c = isWordChar c2 := caseInv_pair lc_isWordChar hc
        have htake : ((c :: rest).take kw.length).map lowerChar =
            ((c2 :: rest2).take kw.length).map lowerChar := by
          rw [List.map_take, List.map_take, hmap]
        have hdropm : ((c :: rest).drop kw.length).map lowerChar =
            ((c2 :: rest2).drop kw.length).map lowerChar := by
          rw [List.map_drop, List.map_drop, hmap]
        have hcond : (!pw && (((c :: rest).take kw.length).map lowerChar == kw)) =
            (!pw && (((c2 :: rest2).take kw.length).map lowerChar == kw)) := by
          rw [htake]
        cases hb : (!pw && (((c :: rest).take kw.length).map lowerChar == kw)) with
        | false =>
          have hb2 : (!pw && (((c2 :: rest2).take kw.length).map lowerChar == kw)) = false := by
            rw [← hcond]; exact hb
          rw [scanTablesF_succ_cons, hb, if_neg Bool.false_ne_true,
              scanTablesF_succ_cons, hb2, if_neg Bool.false_ne_true, hword]
          exact ih (isWordChar c2) rest rest2 hr
        | true =>
          have hb2 : (!pw && (((c2 :: rest2).take kw.length).map lowerChar == kw)) = true := by
            rw [← hcond]; exact hb
          rw [scanTablesF_succ_cons, hb, if_pos rfl, scanTablesF_succ_cons, hb2, if_pos rfl]
          rcases matchTbl_caseEq hdropm with ⟨hm1, hm2⟩ | ⟨t1, r1, t2, r2, hm1, hm2, hty, hry⟩
          · rw [hm1, hm2, hword]
            exact ih (isWordChar c2) rest rest2 hr
          · rw [hm1, hm2]
            exact List.Forall₂.cons hty (ih true r1 r2 hry)

theorem lc_pred_q (q : Char) (hq : ∀ c, lowerChar c = q ↔ c = q) (c : Char) :
    (fun d => !(d = q : Bool)) (lowerChar c) = (fun d => !(d = q : Bool)) c := by
  simp only
  have : (decide (lowerChar c = q)) = (decide (c = q)) := decide_eq_decide.mpr (hq c)
  rw [this]

theorem removeDelimsF_succ_cons (q : Char) (n : Nat) (c : Char) (rest : List Char) :
    removeDelimsF q (n + 1) (c :: rest) =
      if c = q then
        match rest.dropWhile (fun d => !(d = q)) with
        | [] => c :: rest
        | _ :: tail => removeDelimsF q n tail
      else c :: removeDelimsF q n rest := rfl

theorem removeDelimsF_caseEq (q : Char) (hq : ∀ c, lowerChar c = q ↔ c = q) :
    ∀ (fuel : Nat) (l1 l2 : List Char), l1.map lowerChar = l2.map lowerChar →
      (removeDelimsF q fuel l1).map lowerChar = (removeDelimsF q fuel l2).map lowerChar := by
  intro fuel
  induction fuel with
  | zero => intro l1 l2 h; exact h
  | succ n ih =>
    intro l1 l2 h
    cases l1 with
    | nil =>
      cases l2 with
      | nil => rfl
      | cons b t2 => simp at h
    | cons c rest =>
      cases l2 with
      | nil => simp at h
      | cons c2 rest2 =>
        simp only [List.map_cons, List.cons.injEq] at h
        obtain ⟨hc, hr⟩ := h
        have hcq : (c = q) ↔ (c2 = q) := by rw [← hq c, hc, hq c2]
        have hdw := @dropWhile_caseEq (fun d => !(d = q : Bool)) (lc_pred_q q hq) rest rest2 hr
        by_cases hc1 : c = q
        · have hc2 : c2 = q := hcq.mp hc1
          rw [removeDelimsF_succ_cons, if_pos hc1, removeDelimsF_succ_cons, if_pos hc2]
          cases hd1 : rest.dropWhile (fun d => !(d = q)) with
          | nil =>
            have hd2 : rest2.dropWhile (fun d => !(d = q)) = [] := by
              rw [hd1] at hdw
              cases hdx : rest2.dropWhile (fun d => !(d = q)) with
              | nil => rfl
              | cons x xs => rw [hdx] at hdw; simp at hdw
            rw [hd2]
            simp only [List.map_cons, List.cons.injEq]
            exact ⟨hc, hr⟩
          | cons x xs =>
            cases hd2 : rest2.dropWhile (fun d => !(d = q)) with
            | nil => rw [hd1, hd2] at hdw; simp at hdw
            | cons y ys =>
              rw [hd1, hd2] at hdw
              simp only [List.map_cons, List.cons.injEq] at hdw
              exact ih xs ys hdw.2
        · have hc2 : ¬(c2 = q) := fun hx => hc1 (hcq.mpr hx)
          rw [removeDelimsF_succ_cons, if_neg hc1, removeDelimsF_succ_cons, if_neg hc2]
          simp only [List.map_cons, List.cons.injEq]
          exact ⟨hc, ih rest rest2 hr⟩

theorem tokenizeF_succ_cons (n : Nat) (c : Char) (rest : List Char) :
    tokenizeF (n + 1) (c :: rest) =
      if isWordChar c then
        if isIdentStart c then
          (c :: rest.takeWhile isWordChar) :: tokenizeF n (rest.dropWhile isWordChar)
        else tokenizeF n (rest.dropWhile isWordChar)
      else tokenizeF n rest := rfl

theorem tokenizeF_caseEq :
    ∀ (fuel : Nat) (l1 l2 : List Char), l1.map lowerChar = l2.map lowerChar →
      List.Forall₂ (fun a b => a.map lowerChar = b.map lowerChar)
        (tokenizeF fuel l1) (tokenizeF fuel l2) := by
  intro fuel
  induction fuel with
  | zero => intro l1 l2 _; exact List.Forall₂.nil
  | succ n ih =>
    intro l1 l2 h
    cases l1 with
    | nil =>
      cases l2 with
      | nil => exact List.Forall₂.nil
      | cons b t2 => simp at h
    | cons c rest =>
      cases l2 with
      | nil => simp at h
      | cons c2 rest2 =>
        simp only [List.map_cons, List.cons.injEq] at h
        obtain ⟨hc, hr⟩ := h
        have hword : isWordChar c = isWordChar c2 := caseInv_pair lc_isWordChar hc
        have hident : isIdentStart c = isIdentStart c2 := caseInv_pair lc_isIdentStart hc
        have hdw := dropWhile_caseEq lc_isWordChar rest rest2 hr
        have htw := takeWhile_caseEq lc_isWordChar rest rest2 hr
        cases hw : isWordChar c with
        | false =>
          have hw2 : isWordChar c2 = false := by rw [← hword]; exact hw
          rw [tokenizeF_succ_cons, hw, if_neg Bool.false_ne_true,
              tokenizeF_succ_cons, hw2, if_neg Bool.false_ne_true]
          exact ih rest rest2 hr
        | true =>
          have hw2 : isWordChar c2 = true := by rw [← hword]; exact hw
          rw [tokenizeF_succ_cons, hw, if_pos rfl, tokenizeF_succ_cons, hw2, if_pos rfl]
          cases hi : isIdentStart c with
          | false =>
            have hi2 : isIdentStart c2 = false := by rw [← hident]; exact hi
            rw [hi2, if_neg Bool.false_ne_true, if_neg Bool.false_ne_true]
            exact ih (rest.dropWhile isWordChar) (rest2.dropWhile isWordChar) hdw
          | true =>
            have hi2 : isIdentStart c2 = true := by rw [← hident]; exact hi
            rw [hi2, if_pos rfl, if_pos rfl]
            refine List.Forall₂.cons ?_ (ih _ _ hdw)
            simp only [List.map_cons, List.cons.injEq]
            exact ⟨hc, htw⟩

theorem findQuotedF_eq_nil :
    ∀ (fuel : Nat) (l : List Char), l.contains dquote = false → findQuotedF fuel l = [] := by
  intro fuel
  induction fuel with
  | zero => intro l _; rfl
  | succ n ih =>
    intro l h
    cases l with
    | nil => rfl
    | cons c rest =>
      simp only [List.contains_cons, Bool.or_eq_false_iff] at h
      obtain ⟨h1, h2⟩ := h
      have hc : ¬(c = dquote) := by
        intro hx
        rw [hx] at h1
        simp at h1
      show (if c = dquote then _ else findQuotedF n rest) = []
      rw [if_neg hc]
      exact ih rest h2

theorem contains_dquote_caseEq :
    ∀ (l1 l2 : List Char), l1.map lowerChar = l2.map lowerChar →
      l1.contains dquote = l2.contains dquote := by
  intro l1
  induction l1 with
  | nil =>
    intro l2 h
    cases l2 with
    | nil => rfl
    | cons b t2 => simp at h
  | cons a t1 ih =>
    intro l2 h
    cases l2 with
    | nil => simp at h
    | cons b t2 =>
      simp only [List.map_cons, List.cons.injEq] at h
      obtain ⟨h1, h2⟩ := h
      have hiff : (a = dquote) ↔ (b = dquote) := by
        rw [← lc_eq_dquote a, h1, lc_eq_dquote b]
      have hb : (dquote == a) = (dquote == b) := by
        by_cases hcc : a = dquote
        · have hcc2 := hiff.mp hcc
          rw [hcc, hcc2]
        · have hcc2 : ¬(b = dquote) := fun hx => hcc (hiff.mpr hx)
          have e1 : (dquote == a) = false := by
            simp [beq_iff_eq]
            intro hx
            exact hcc hx.symm
          have e2 : (dquote == b) = false := by
            simp [beq_iff_eq]
            intro hx
            exact hcc2 hx.symm
          rw [e1, e2]
      simp only [List.contains_cons, hb, ih t2 h2]

theorem find?_isSome_congr {α β : Type} (R : α → β → Prop) (p : α → Bool) (pq : β → Bool)
    (hpq : ∀ a b, R a b → p a = pq b) :
    ∀ {l1 : List α} {l2 : List β}, List.Forall₂ R l1 l2 →
      (l1.find? p).isSome = (l2.find? pq).isSome := by
  intro l1 l2 hf
  induction hf with
  | nil => rfl
  | @cons a b t1 t2 hab htail ih =>
    cases hpa : p a with
    | true =>
      have hpb : pq b = true := by rw [← hpq a b hab]; exact hpa
      rw [List.find?_cons_of_pos _ hpa, List.find?_cons_of_pos _ hpb]
      rfl
    | false =>
      have hpb : pq b = false := by rw [← hpq a b hab]; exact hpa
      rw [List.find?_cons_of_neg _ (by simp [hpa]), List.find?_cons_of_neg _ (by simp [hpb])]
      exact ih

theorem forall2_map_mk {R : List Char → List Char → Prop} {S : String → String → Prop}
    (hRS : ∀ a b, R a b → S (String.mk a) (String.mk b)) :
    ∀ {l1 l2 : List (List Char)}, List.Forall₂ R l1 l2 →
      List.Forall₂ S (l1.map String.mk) (l2.map String.mk) := by
  intro l1 l2 hf
  induction hf with
  | nil => exact List.Forall₂.nil
  | cons hab _ ih => exact List.Forall₂.cons (hRS _ _ hab) ih

theorem lowerStr_mk_caseEq {a b : List Char} (h : a.map lowerChar = b.map lowerChar) :
    lowerStr (String.mk a) = lowerStr (String.mk b) :=
  congrArg String.mk h

theorem bareOk_congr (vt vc al : List String) {s1 s2 : String}
    (h : lowerStr s1 = lowerStr s2) : bareOk vt vc al s1 = bareOk vt vc al s2 := by
  unfold bareOk
  rw [h]

theorem removeDelims_caseEq (q : Char) (hq : ∀ c, lowerChar c = q ↔ c = q)
    {l1 l2 : List Char} (h : l1.map lowerChar = l2.map lowerChar) :
    (removeDelims q l1).map lowerChar = (removeDelims q l2).map lowerChar := by
  unfold removeDelims
  rw [caseEq_length h]
  exact removeDelimsF_caseEq q hq l2.length l1 l2 h

theorem tokenize_caseEq {l1 l2 : List Char} (h : l1.map lowerChar = l2.map lowerChar) :
    List.Forall₂ (fun a b => a.map lowerChar = b.map lowerChar) (tokenize l1) (tokenize l2) := by
  unfold tokenize
  rw [caseEq_length h]
  exact tokenizeF_caseEq l2.length l1 l2 h

theorem extract_table_aliases_caseEq (vt : List String) {l1 l2 : List Char}
    (h : l1.map lowerChar = l2.map lowerChar) :
    extract_table_aliases l1 vt = extract_table_aliases l2 vt := by
  have h' : lowerL l1 = lowerL l2 := h
  unfold extract_table_aliases
  rw [h']

theorem forall2_append {α β : Type} {R : α → β → Prop} :
    ∀ {a1 b1 : List α} {a2 b2 : List β}, List.Forall₂ R a1 a2 → List.Forall₂ R b1 b2 →
      List.Forall₂ R (a1 ++ b1) (a2 ++ b2) := by
  intro a1 b1 a2 b2 h1 h2
  induction h1 with
  | nil => simpa using h2
  | cons hab _ ih => exact List.Forall₂.cons hab ih

theorem enforce_fst_caseEq (schema : List TableSummary) (sql1 sql2 : String)
    (h : sql1.data.map lowerChar = sql2.data.map lowerChar)
    (hqd : sql1.data.contains dquote = false) :
    (enforce_schema_strictly sql1 schema).1 =
      (enforce_schema_strictly sql2 schema).1 := by
  have hq2 : sql2.data.contains dquote = false := by
    rw [← contains_dquote_caseEq sql1.data sql2.data h]; exact hqd
  have hfq1 : findQuoted sql1.data = [] := findQuotedF_eq_nil sql1.data.length sql1.data hqd
  have hfq2 : findQuoted sql2.data = [] := findQuotedF_eq_nil sql2.data.length sql2.data hq2
  have hlen : sql1.data.length = sql2.data.length := caseEq_length h
  have hrm : (removeDelims dquote (removeDelims squote sql1.data)).map lowerChar =
      (removeDelims dquote (removeDelims squote sql2.data)).map lowerChar :=
    removeDelims_caseEq dquote lc_eq_dquote (removeDelims_caseEq squote lc_eq_squote h)
  have htok := tokenize_caseEq hrm
  have htokS : List.Forall₂ (fun s1 s2 => lowerStr s1 = lowerStr s2)
      ((tokenize (removeDelims dquote (removeDelims squote sql1.data))).map String.mk)
      ((tokenize (removeDelims dquote (removeDelims squote sql2.data))).map String.mk) :=
    forall2_map_mk (fun a b hab => lowerStr_mk_caseEq hab) htok
  have hal : extract_table_aliases sql1.data (validTablesOf schema) =
      extract_table_aliases sql2.data (validTablesOf schema) :=
    extract_table_aliases_caseEq (validTablesOf schema) h
  have hfind2 : (((tokenize (removeDelims dquote (removeDelims squote sql1.data))).map String.mk).find?
        (fun idf => !bareOk (validTablesOf schema) (validColumnsOf schema)
          (extract_table_aliases sql1.data (validTablesOf schema)) idf)).isSome =
      (((tokenize (removeDelims dquote (removeDelims squote sql2.data))).map String.mk).find?
        (fun idf => !bareOk (validTablesOf schema) (validColumnsOf schema)
          (extract_table_aliases sql1.data (validTablesOf schema)) idf)).isSome :=
    find?_isSome_congr _ _ _
      (fun a b hab => by
        rw [bareOk_congr (validTablesOf schema) (validColumnsOf schema)
          (extract_table_aliases sql1.data (validTablesOf schema)) hab])
      htokS
  have hsf := scanTablesF_caseEq "from".data sql2.data.length false sql1.data sql2.data h
  have hsj := scanTablesF_caseEq "join".data sql2.data.length false sql1.data sql2.data h
  have hfj1 : fromJoinTables sql1.data =
      (scanTablesF "from".data sql2.data.length false sql1.data ++
       scanTablesF "join".data sql2.data.length false sql1.data).map String.mk := by
    unfold fromJoinTables
    rw [hlen]
  have hfjS : List.Forall₂ (fun s1 s2 => lowerStr s1 = lowerStr s2)
      (fromJoinTables sql1.data) (fromJoinTables sql2.data) := by
    rw [hfj1]
    unfold fromJoinTables
    exact forall2_map_mk (fun a b hab => lowerStr_mk_caseEq hab) (forall2_append hsf hsj)
  have hfind3 : ((fromJoinTables sql1.data).find?
        (fun t => !(validTablesOf schema).contains (lowerStr t))).isSome =
      ((fromJoinTables sql2.data).find?
        (fun t => !(validTablesOf schema).contains (lowerStr t))).isSome :=
    find?_isSome_congr _ _ _
      (fun a b hab => by rw [hab])
      hfjS
  simp only [enforce_schema_strictly]
  rw [hfq1, hfq2, ← hal]
  simp only [List.map_nil, List.find?_nil]
  cases hA : ((tokenize (removeDelims dquote (removeDelims squote sql1.data))).map String.mk).find?
      (fun idf => !bareOk (validTablesOf schema) (validColumnsOf schema)
        (extract_table_aliases sql1.data (validTablesOf schema)) idf) with
  | some a =>
    have hBs : (((tokenize (removeDelims dquote (removeDelims squote sql2.data))).map String.mk).find?
        (fun idf => !bareOk (validTablesOf schema) (validColumnsOf schema)
          (extract_table_aliases sql1.data (validTablesOf schema)) idf)).isSome = true := by
      rw [← hfind2, hA]
      rfl
    obtain ⟨b, hB⟩ := Option.isSome_iff_exists.mp hBs
    rw [hB]
  | none =>
    have hBn : ((tokenize (removeDelims dquote (removeDelims squote sql2.data))).map String.mk).find?
        (fun idf => !bareOk (validTablesOf schema) (validColumnsOf schema)
          (extract_table_aliases sql1.data (validTablesOf schema)) idf) = Option.none := by
      have hx := hfind2
      rw [hA] at hx
      cases hBx : ((tokenize (removeDelims dquote (removeDelims squote sql2.data))).map String.mk).find?
          (fun idf => !bareOk (validTablesOf schema) (validColumnsOf schema)
            (extract_table_aliases sql1.data (validTablesOf schema)) idf) with
      | none => rfl
      | some bx => rw [hBx] at hx; simp at hx
    rw [hBn]
    cases hC : (fromJoinTables sql1.data).find?
        (fun t => !(validTablesOf schema).contains (lowerStr t)) with
    | some c =>
      have hDs : ((fromJoinTables sql2.data).find?
          (fun t => !(validTablesOf schema).contains (lowerStr t))).isSome = true := by
        rw [← hfind3, hC]
        rfl
      obtain ⟨d, hD⟩ := Option.isSome_iff_exists.mp hDs
      rw [hD]
    | none =>
      have hDn : (fromJoinTables sql2.data).find?
          (fun t => !(validTablesOf schema).contains (lowerStr t)) = Option.none := by
        have hx := hfind3
        rw [hC] at hx
        cases hDx : (fromJoinTables sql2.data).find?
            (fun t => !(validTablesOf schema).contains (lowerStr t)) with
        | none => rfl
        | some dx => rw [hDx] at hx; simp at hx
      rw [hDn]

/-- C4: given the schema with table cooperatives and column name, the two
example statements SELECT NAME FROM cooperatives and
SELECT name FROM COOPERATIVES are both accepted with the identical outcome;
and in general, for statements without double-quoted identifiers, changing
only letter case never changes whether enforce_schema_strictly validates
the statement — bare identifiers and FROM/JOIN table operands are matched
case-insensitively. -/
theorem c4_bare_identifier_case_insensitive :
    (enforce_schema_strictly qA demoSchema = (true, Option.none) ∧
     enforce_schema_strictly qB demoSchema = (true, Option.none)) ∧
    (∀ (schema : List TableSummary) (sql1 sql2 : String),
      sql1.data.map lowerChar = sql2.data.map lowerChar →
      sql1.data.contains dquote = false →
      (enforce_schema_strictly sql1 schema).1 = (enforce_schema_strictly sql2 schema).1) := by
  refine ⟨⟨by decide, by decide⟩, ?_⟩
  intro schema sql1 sql2 h hq
  exact enforce_fst_caseEq schema sql1 sql2 h hq

/-- C4 witness: the general case-invariance applied to the two concrete
example statements, whose hypotheses are discharged by evaluation. -/
theorem c4_witness :
    qA.data.map lowerChar = qB.data.map lowerChar ∧
    qA.data.contains dquote = false ∧
    (enforce_schema_strictly qA demoSchema).1 = (enforce_schema_strictly qB demoSchema).1 :=
  ⟨by decide, by decide,
    c4_bare_identifier_case_insensitive.2 demoSchema qA qB (by decide) (by decide)⟩

/-- C8 witness: the subset property at a concrete metadata source and a
request naming one resolvable and one nonexistent table. -/
theorem c8_witness :
    ((build_schema_summary tables8 fetchNone (some rel8)).map (fun d => d.table) =
      rel8.filter (fun n => (tables8.lookup n).isSome)) ∧
    ((build_schema_summary tables8 fetchNone (some rel8)).map (fun d => d.table)).Nodup ∧
    ((build_schema_summary tables8 fetchNone (some rel8)).all
      (fun d => rel8.contains d.table && (tables8.map Prod.fst).contains d.table)) = true ∧
    (rel8.all (fun n => (tables8.map Prod.fst).contains n ||
      !(((build_schema_summary tables8 fetchNone (some rel8)).map
        (fun d => d.table)).contains n))) = true :=
  c8_requested_subset_only tables8 fetchNone rel8 (by decide) (by decide)
